import Mathlib

/-!
Shallow embedding of the blog application in `src/main.py` (a Flask +
SQLAlchemy + flask-login application).  The three mapped tables `User`,
`BlogPost` and `Comment` become Lean structures; the database plus the
session cookie become an explicit `State` record; every route handler
becomes a total Lean function from its request inputs and the current
state to a `Result` (HTTP outcome, new state, number of commits issued,
flashed messages).  Python-level faults (e.g. `AttributeError` from
reading an attribute of `None`) are modelled with `Except`.
-/

namespace Blog

/-- Row of table `users` (src/main.py, class `User`): integer primary key,
unique email, hashed password and display name. -/
structure User where
  id : Nat
  email : String
  password : String
  name : String
deriving Repr, DecidableEq

/-- Row of table `blog_posts` (src/main.py, class `BlogPost`).  The
`author_id` column is a nullable foreign key into `users`, hence
`Option Nat`; `date` is stored as display-formatted text. -/
structure BlogPost where
  id : Nat
  author_id : Option Nat
  title : String
  subtitle : String
  date : String
  body : String
  img_url : String
deriving Repr, DecidableEq

/-- Row of table `comments` (src/main.py, class `Comment`): nullable
foreign keys `author_id` (into `users`) and `post_id` (into
`blog_posts`), plus the comment text. -/
structure Comment where
  id : Nat
  author_id : Option Nat
  post_id : Option Nat
  text : String
deriving Repr, DecidableEq

/-- The server-visible state: the three tables plus the flask-login
session, which holds the id of the logged-in user (`none` = anonymous). -/
structure State where
  users : List User
  posts : List BlogPost
  comments : List Comment
  session : Option Nat
deriving Repr, DecidableEq

/-- The empty database with an anonymous session. -/
def initialState : State := ⟨[], [], [], none⟩

/-- SQLite assigns a fresh integer primary key as max existing id + 1. -/
def nextId (ids : List Nat) : Nat := ids.foldr max 0 + 1

/-- `load_user` / `current_user` resolution: the session's user id is
looked up in `users`; a missing id leaves the request anonymous. -/
def currentUser (st : State) : Option User :=
  st.session.bind (fun uid => st.users.find? (fun u => u.id == uid))

/-- Model of werkzeug's `generate_password_hash(p, method="pbkdf2:sha256:5",
salt_length=8)`: an iterated salted hash, encoded as method, salt and
digest.  The digest is modelled injectively in the password so that
`check_password_hash` can be decided. -/
def generate_password_hash (salt password : String) : String :=
  "pbkdf2:sha256:5" ++ "$" ++ salt ++ "$" ++ password

/-- Model of werkzeug's `check_password_hash h p`: the stored value must
carry the pbkdf2 method tag and its digest must match `p` (stated on the
character lists so that concrete instances evaluate). -/
def check_password_hash (h password : String) : Bool :=
  List.isPrefixOf ("pbkdf2:sha256:5" ++ "$").data h.data &&
  List.isSuffixOf ("$" ++ password).data h.data

/-- HTTP outcomes produced by the handlers, carrying the data each
template receives. -/
inductive Response where
  | renderIndex (all_posts : List BlogPost) (logged_in : Bool)
  | renderRegister
  | renderLogin
  | renderAbout (logged_in : Bool)
  | renderContact (logged_in : Bool)
  | renderPost (post : Option BlogPost) (logged_in : Bool) (comments : List Comment)
  | renderMakePost (title subtitle img_url author body : String) (logged_in : Bool)
  | redirect (route : String)
  | abort (code : Nat)
deriving Repr, DecidableEq

/-- Python exceptions that escape a handler (request faults with a 500):
`AttributeError` from dereferencing `None`, the mapper's error when
`db.session.delete` is given `None`, and the store's `IntegrityError`
when a commit violates a declared unique constraint. -/
inductive Err where
  | attributeError
  | unmappedInstanceError
  | integrityError
deriving Repr, DecidableEq

deriving instance DecidableEq for Except

/-- What one request produces: the outcome (or fault), the state after
the request, how many commits the handler issued, and the flashed
messages. -/
structure Result where
  response : Except Err Response
  state : State
  commits : Nat
  flashes : List String
deriving Repr, DecidableEq

/-- A validated `RegisterForm` submission; `salt` is the random salt the
hashing library draws for this request. -/
structure RegInput where
  email : String
  password : String
  name : String
  salt : String
deriving Repr, DecidableEq

/-- A validated `LoginForm` submission. -/
structure LoginInput where
  email : String
  password : String
deriving Repr, DecidableEq

/-- A validated `CreatePostForm` submission. -/
structure PostInput where
  title : String
  subtitle : String
  body : String
  img_url : String
deriving Repr, DecidableEq

/-- A calendar date, the value of `date.today()` for a request. -/
structure Date where
  year : Nat
  month : Nat
  day : Nat
deriving Repr, DecidableEq

/-- strftime's `%B`: the full month name. -/
def monthName : Nat → String
  | 1 => "January"
  | 2 => "February"
  | 3 => "March"
  | 4 => "April"
  | 5 => "May"
  | 6 => "June"
  | 7 => "July"
  | 8 => "August"
  | 9 => "September"
  | 10 => "October"
  | 11 => "November"
  | 12 => "December"
  | _ => ""

/-- strftime's `%d`: zero-padded day of month. -/
def pad2 (n : Nat) : String :=
  if n < 10 then "0" ++ toString n else toString n

/-- `date.today().strftime("%B %d, %Y")` (src/main.py line 204). -/
def strftimeBdY (d : Date) : String :=
  monthName d.month ++ " " ++ pad2 d.day ++ ", " ++ toString d.year

/-- The `admin_only` decorator (src/main.py lines 84-92): run the wrapped
handler only when the session is authenticated and the current user's id
is the hardcoded 1; otherwise `abort(403)` — state untouched, no commit,
no flash, no further detail. -/
def admin_only (handler : State → Result) (st : State) : Result :=
  match currentUser st with
  | some u => if u.id == 1 then handler st else ⟨Except.ok (Response.abort 403), st, 0, []⟩
  | none => ⟨Except.ok (Response.abort 403), st, 0, []⟩

/-- Route `/` (`get_all_posts`): render all posts. -/
def get_all_posts (st : State) : Result :=
  ⟨Except.ok (Response.renderIndex st.posts (currentUser st).isSome), st, 0, []⟩

/-- Route `/register` (src/main.py lines 104-123).  `form = none` models
a GET or a form that failed validation.  On a fresh email: hash the
password, insert the user, commit, log the new user in and redirect to
the index.  On a duplicate email: flash and redirect to the login page,
creating nothing. -/
def register (form : Option RegInput) (st : State) : Result :=
  match form with
  | none => ⟨Except.ok Response.renderRegister, st, 0, []⟩
  | some f =>
    match st.users.find? (fun u => u.email == f.email) with
    | some _ =>
      ⟨Except.ok (Response.redirect "login"), st, 0,
        ["You've already signed up with that email. Login instead"]⟩
    | none =>
      let hashed_password := generate_password_hash f.salt f.password
      let uid := nextId (st.users.map (fun u => u.id))
      let new_user : User := ⟨uid, f.email, hashed_password, f.name⟩
      ⟨Except.ok (Response.redirect "get_all_posts"),
        { st with users := st.users ++ [new_user], session := some uid }, 1, []⟩

/-- Route `/login` (src/main.py lines 126-141).  Email not found or hash
mismatch: flash and re-render the login page (no session change);
otherwise `login_user` and redirect to the index. -/
def login (form : Option LoginInput) (st : State) : Result :=
  match form with
  | none => ⟨Except.ok Response.renderLogin, st, 0, []⟩
  | some f =>
    match st.users.find? (fun u => u.email == f.email) with
    | some user =>
      if check_password_hash user.password f.password then
        ⟨Except.ok (Response.redirect "get_all_posts"),
          { st with session := some user.id }, 0, []⟩
      else
        ⟨Except.ok Response.renderLogin, st, 0, ["Invalid password."]⟩
    | none =>
      ⟨Except.ok Response.renderLogin, st, 0,
        ["This email does not exist. Please try again."]⟩

/-- Route `/logout` (src/main.py lines 144-148).  `@login_required` with
no configured login view responds 401 to anonymous requests; otherwise
the session is cleared and the client redirected to the index. -/
def logout (st : State) : Result :=
  match currentUser st with
  | some _ =>
    ⟨Except.ok (Response.redirect "get_all_posts"), { st with session := none }, 0, []⟩
  | none => ⟨Except.ok (Response.abort 401), st, 0, []⟩

/-- Route `/post/<post_id>` (`show_post`, src/main.py lines 151-171).
`comment = none` models a GET (or invalid form).  A submitted comment by
an authenticated user is inserted with the submitter as author and
`requested_post.id` as parent — an `AttributeError` when the post does
not exist; an anonymous submission flashes and redirects to login.  The
rendered page lists `Comment.query.all()`: every comment in the store,
unfiltered. -/
def show_post (post_id : Nat) (comment : Option String) (st : State) : Result :=
  let requested_post := st.posts.find? (fun p => p.id == post_id)
  let logged_in := (currentUser st).isSome
  match comment with
  | some text =>
    match currentUser st with
    | some u =>
      match requested_post with
      | none => ⟨Except.error Err.attributeError, st, 0, []⟩
      | some p =>
        let new_comment : Comment :=
          ⟨nextId (st.comments.map (fun c => c.id)), some u.id, some p.id, text⟩
        let st' := { st with comments := st.comments ++ [new_comment] }
        ⟨Except.ok (Response.renderPost (some p) logged_in st'.comments), st', 1, []⟩
    | none =>
      ⟨Except.ok (Response.redirect "login"), st, 0,
        ["You need to login or register to comment."]⟩
  | none =>
    ⟨Except.ok (Response.renderPost requested_post logged_in st.comments), st, 0, []⟩

/-- Route `/about`. -/
def about (st : State) : Result :=
  ⟨Except.ok (Response.renderAbout (currentUser st).isSome), st, 0, []⟩

/-- Route `/contact`. -/
def contact (st : State) : Result :=
  ⟨Except.ok (Response.renderContact (currentUser st).isSome), st, 0, []⟩

/-- Body of route `/new-post` (`add_new_post`, src/main.py lines 190-209)
before the `admin_only` wrapping.  On submission a new `BlogPost` is
inserted with today's date formatted `"%B %d, %Y"` and `current_user` as
author, then committed; the commit raises `IntegrityError` if the unique
constraint on `title` is violated. -/
def add_new_post_body (form : Option PostInput) (today : Date) (st : State) : Result :=
  let logged_in := (currentUser st).isSome
  match form with
  | none => ⟨Except.ok (Response.renderMakePost "" "" "" "" "" logged_in), st, 0, []⟩
  | some f =>
    match currentUser st with
    | none => ⟨Except.error Err.attributeError, st, 0, []⟩
    | some u =>
      if st.posts.any (fun p => p.title == f.title) then
        ⟨Except.error Err.integrityError, st, 1, []⟩
      else
        let new_post : BlogPost :=
          ⟨nextId (st.posts.map (fun p => p.id)), some u.id, f.title, f.subtitle,
            strftimeBdY today, f.body, f.img_url⟩
        ⟨Except.ok (Response.redirect "get_all_posts"),
          { st with posts := st.posts ++ [new_post] }, 1, []⟩

/-- Route `/new-post`: `add_new_post_body` behind `admin_only`. -/
def add_new_post (form : Option PostInput) (today : Date) : State → Result :=
  admin_only (add_new_post_body form today)

/-- Body of route `/edit-post/<post_id>` (`edit_post`, src/main.py lines
212-234) before the `admin_only` wrapping.  The post is loaded by id and
the form pre-filled (reading `post.title` and `post.author.name`, which
faults when the post or its author is missing); on submission exactly
title, subtitle, img_url and body are overwritten and committed, with
`IntegrityError` if the new title collides with another post's. -/
def edit_post_body (post_id : Nat) (form : Option PostInput) (st : State) : Result :=
  let logged_in := (currentUser st).isSome
  match st.posts.find? (fun p => p.id == post_id) with
  | none => ⟨Except.error Err.attributeError, st, 0, []⟩
  | some post =>
    match st.users.find? (fun u => some u.id == post.author_id) with
    | none => ⟨Except.error Err.attributeError, st, 0, []⟩
    | some au =>
      match form with
      | none =>
        ⟨Except.ok (Response.renderMakePost post.title post.subtitle post.img_url
          au.name post.body logged_in), st, 0, []⟩
      | some f =>
        if st.posts.any (fun q => q.id != post.id && q.title == f.title) then
          ⟨Except.error Err.integrityError, st, 1, []⟩
        else
          let posts' := st.posts.map (fun q =>
            if q.id == post.id then
              { q with title := f.title, subtitle := f.subtitle,
                       img_url := f.img_url, body := f.body }
            else q)
          ⟨Except.ok (Response.redirect "show_post"),
            { st with posts := posts' }, 1, []⟩

/-- Route `/edit-post/<post_id>`: `edit_post_body` behind `admin_only`. -/
def edit_post (post_id : Nat) (form : Option PostInput) : State → Result :=
  admin_only (edit_post_body post_id form)

/-- Body of route `/delete/<post_id>` (`delete_post`, src/main.py lines
237-243) before the `admin_only` wrapping.  `db.session.delete(None)`
faults when the post is missing; otherwise the post row is removed and,
per the mapper's default relationship cascade, the `post_id` of its
comments is set to NULL at flush time.  Comment rows are not deleted. -/
def delete_post_body (post_id : Nat) (st : State) : Result :=
  match st.posts.find? (fun p => p.id == post_id) with
  | none => ⟨Except.error Err.unmappedInstanceError, st, 0, []⟩
  | some _ =>
    let posts' := st.posts.filter (fun p => p.id != post_id)
    let comments' := st.comments.map (fun c =>
      if c.post_id == some post_id then { c with post_id := none } else c)
    ⟨Except.ok (Response.redirect "get_all_posts"),
      { st with posts := posts', comments := comments' }, 1, []⟩

/-- Route `/delete/<post_id>`: `delete_post_body` behind `admin_only`. -/
def delete_post (post_id : Nat) : State → Result :=
  admin_only (delete_post_body post_id)

/-- One incoming HTTP request, with every nondeterministic input (form
data, random salt, today's date) made explicit. -/
inductive Op where
  | index
  | reg (form : Option RegInput)
  | logIn (form : Option LoginInput)
  | logOut
  | showPost (post_id : Nat) (comment : Option String)
  | aboutPage
  | contactPage
  | newPost (form : Option PostInput) (today : Date)
  | editPost (post_id : Nat) (form : Option PostInput)
  | deletePost (post_id : Nat)
deriving Repr, DecidableEq

/-- Dispatch a request to its handler. -/
def applyOp : Op → State → Result
  | Op.index => get_all_posts
  | Op.reg form => register form
  | Op.logIn form => login form
  | Op.logOut => logout
  | Op.showPost pid c => show_post pid c
  | Op.aboutPage => about
  | Op.contactPage => contact
  | Op.newPost form today => add_new_post form today
  | Op.editPost pid form => edit_post pid form
  | Op.deletePost pid => delete_post pid

/-- The states reachable from the empty store through the exposed
operations. -/
inductive Reachable : State → Prop where
  | init : Reachable initialState
  | step {st : State} (o : Op) : Reachable st → Reachable (applyOp o st).state

/-- Run a list of requests, keeping only the state. -/
def runOps (ops : List Op) (st : State) : State :=
  ops.foldl (fun s o => (applyOp o s).state) st

/-! ### Concrete fixture states used by the witnesses -/

/-- Two registered users; user 1 is the first-ever registered one. -/
def demoUsers : List User :=
  [⟨1, "a@x.com", generate_password_hash "s1" "pw", "Alice"⟩,
   ⟨2, "b@x.com", generate_password_hash "s2" "qw", "Bob"⟩]

/-- One post authored by user 1. -/
def demoPost : BlogPost :=
  ⟨1, some 1, "Hello", "Sub", "January 01, 2024", "Body", "http://img"⟩

/-- Session of the admin (user 1). -/
def stAdmin : State := ⟨demoUsers, [demoPost], [], some 1⟩

/-- Session of a non-admin user (user 2). -/
def stBob : State := ⟨demoUsers, [demoPost], [], some 2⟩

/-- Anonymous session. -/
def stAnon : State := ⟨demoUsers, [demoPost], [], none⟩

/-- Admin session over a store with no posts. -/
def stNoPost : State := ⟨demoUsers, [], [], some 1⟩

/-! ### Invariants (claim C8) -/

/-- `a` is a foreign key referencing exactly one existing user row. -/
def refsOneUser (users : List User) (a : Option Nat) : Prop :=
  (users.filter (fun u => a == some u.id)).length = 1

/-- `a` is a foreign key referencing exactly one existing post row. -/
def refsOnePost (posts : List BlogPost) (a : Option Nat) : Prop :=
  (posts.filter (fun p => a == some p.id)).length = 1

/-- The referential invariant exactly as claimed: every Comment
references exactly one existing User and one existing Post, every Post
references exactly one existing User, emails and titles are unique. -/
def ClaimedInv (st : State) : Prop :=
  (∀ c ∈ st.comments, refsOneUser st.users c.author_id ∧ refsOnePost st.posts c.post_id) ∧
  (∀ p ∈ st.posts, refsOneUser st.users p.author_id) ∧
  (st.users.map (fun u => u.email)).Nodup ∧
  (st.posts.map (fun p => p.title)).Nodup

/-- The invariant the code actually maintains: as `ClaimedInv`, except
that a Comment's parent-post reference may also be NULL (deleting a post
nulls its comments' `post_id`). -/
def AmendedInv (st : State) : Prop :=
  (∀ c ∈ st.comments,
    refsOneUser st.users c.author_id ∧ (c.post_id = none ∨ refsOnePost st.posts c.post_id)) ∧
  (∀ p ∈ st.posts, refsOneUser st.users p.author_id) ∧
  (st.users.map (fun u => u.email)).Nodup ∧
  (st.posts.map (fun p => p.title)).Nodup

/-- Strengthened induction invariant: primary keys are unique and all
foreign keys resolve (a comment's parent may be NULL). -/
def InvAux (st : State) : Prop :=
  (st.users.map (fun u => u.id)).Nodup ∧
  (st.posts.map (fun p => p.id)).Nodup ∧
  (st.comments.map (fun c => c.id)).Nodup ∧
  (st.users.map (fun u => u.email)).Nodup ∧
  (st.posts.map (fun p => p.title)).Nodup ∧
  (∀ p ∈ st.posts, ∃ u ∈ st.users, p.author_id = some u.id) ∧
  (∀ c ∈ st.comments, ∃ u ∈ st.users, c.author_id = some u.id) ∧
  (∀ c ∈ st.comments, c.post_id = none ∨ ∃ p ∈ st.posts, c.post_id = some p.id)

/-- A session that registers, posts, comments on the post, then deletes
the post. -/
def cexOps : List Op :=
  [Op.reg (some ⟨"a@x.com", "pw", "Alice", "s1"⟩),
   Op.newPost (some ⟨"Hello", "Sub", "Body", "http://img"⟩) ⟨2024, 1, 1⟩,
   Op.showPost 1 (some "Nice!"),
   Op.deletePost 1]

/-- The state reached by `cexOps`: it still holds the comment, whose
parent post is gone. -/
def cexState : State := runOps cexOps initialState

instance decRefsOneUser (users : List User) (a : Option Nat) : Decidable (refsOneUser users a) := by
  unfold refsOneUser; infer_instance

instance decRefsOnePost (posts : List BlogPost) (a : Option Nat) : Decidable (refsOnePost posts a) := by
  unfold refsOnePost; infer_instance

instance decClaimedInv (st : State) : Decidable (ClaimedInv st) := by
  unfold ClaimedInv; infer_instance

instance decAmendedInv (st : State) : Decidable (AmendedInv st) := by
  unfold AmendedInv; infer_instance

instance decInvAux (st : State) : Decidable (InvAux st) := by
  unfold InvAux; infer_instance

/-! ### Helper lemmas -/

lemma le_foldr_max (l : List Nat) : ∀ x ∈ l, x ≤ l.foldr max 0 := by
  induction l with
  | nil => intro x hx; cases hx
  | cons a t ih =>
    intro x hx
    rcases List.mem_cons.mp hx with h | h
    · subst h; exact le_max_left _ _
    · exact le_trans (ih x h) (le_max_right _ _)

lemma nextId_not_mem (l : List Nat) : nextId l ∉ l := by
  intro hmem
  have := le_foldr_max l _ hmem
  simp only [nextId] at this
  omega

lemma mem_of_find?_eq_some {α : Type} {p : α → Bool} {l : List α} {a : α}
    (h : l.find? p = some a) : a ∈ l ∧ p a = true :=
  ⟨List.mem_of_find?_eq_some h, List.find?_some h⟩

lemma reachable_runOps (ops : List Op) {st : State} (h : Reachable st) :
    Reachable (runOps ops st) := by
  induction ops generalizing st with
  | nil => exact h
  | cons o t ih => exact ih (Reachable.step o h)

lemma nodup_append_singleton {α : Type} {l : List α} {a : α} (h : l.Nodup) (ha : a ∉ l) :
    (l ++ [a]).Nodup :=
  List.nodup_append.mpr ⟨h, List.nodup_singleton a,
    fun _ hx hmem => ha ((List.mem_singleton.mp hmem) ▸ hx)⟩

lemma not_mem_map_email {users : List User} {e : String}
    (h : users.find? (fun u => u.email == e) = none) :
    e ∉ users.map (fun u => u.email) := by
  rw [List.find?_eq_none] at h
  intro hmem
  obtain ⟨u, hu, he⟩ := List.mem_map.mp hmem
  exact h u hu (by simp [he])

lemma not_mem_map_title {posts : List BlogPost} {t : String}
    (h : posts.any (fun p => p.title == t) = false) :
    t ∉ posts.map (fun p => p.title) := by
  rw [List.any_eq_false] at h
  intro hmem
  obtain ⟨p, hp, he⟩ := List.mem_map.mp hmem
  exact h p hp (by simp [he])

lemma currentUser_mem {st : State} {u : User} (h : currentUser st = some u) :
    u ∈ st.users := by
  unfold currentUser at h
  cases hs : st.session with
  | none => rw [hs] at h; cases h
  | some uid =>
    rw [hs] at h
    simp only [Option.some_bind] at h
    exact (mem_of_find?_eq_some h).1

lemma filter_length_one {α : Type} {l : List α} {q : α → Bool} (hl : l.Nodup)
    (hex : ∃ x ∈ l, q x = true)
    (huniq : ∀ x ∈ l, ∀ y ∈ l, q x = true → q y = true → x = y) :
    (l.filter q).length = 1 := by
  obtain ⟨x, hx, hqx⟩ := hex
  have hxf : x ∈ l.filter q := List.mem_filter.mpr ⟨hx, hqx⟩
  have hall : ∀ y ∈ l.filter q, y = x := fun y hy =>
    huniq y (List.mem_filter.mp hy).1 x hx (List.mem_filter.mp hy).2 hqx
  have hnd : (l.filter q).Nodup := hl.filter q
  cases hfq : l.filter q with
  | nil => rw [hfq] at hxf; cases hxf
  | cons a t =>
    rw [hfq] at hall hnd
    cases t with
    | nil => rfl
    | cons b s =>
      have hbx : b = x := hall b (by simp)
      have hax : a = x := hall a (by simp)
      rw [List.nodup_cons] at hnd
      have : a ∈ b :: s := by rw [hax, ← hbx]; exact List.mem_cons_self b s
      exact absurd this hnd.1

lemma refsOneUser_intro {users : List User} {a : Option Nat}
    (hnd : (users.map (fun u => u.id)).Nodup)
    (hex : ∃ u ∈ users, a = some u.id) : refsOneUser users a := by
  unfold refsOneUser
  refine filter_length_one (hnd.of_map _) ?_ ?_
  · obtain ⟨u, hu, ha⟩ := hex
    exact ⟨u, hu, by simp [ha]⟩
  · intro x hx y hy hqx hqy
    have hx' : a = some x.id := by simpa using hqx
    have hy' : x.id = y.id := by
      have := by simpa using hqy
      rw [hx'] at this
      exact Option.some.inj this
    exact List.inj_on_of_nodup_map hnd hx hy hy'

lemma refsOnePost_intro {posts : List BlogPost} {a : Option Nat}
    (hnd : (posts.map (fun p => p.id)).Nodup)
    (hex : ∃ p ∈ posts, a = some p.id) : refsOnePost posts a := by
  unfold refsOnePost
  refine filter_length_one (hnd.of_map _) ?_ ?_
  · obtain ⟨p, hp, ha⟩ := hex
    exact ⟨p, hp, by simp [ha]⟩
  · intro x hx y hy hqx hqy
    have hx' : a = some x.id := by simpa using hqx
    have hy' : x.id = y.id := by
      have := by simpa using hqy
      rw [hx'] at this
      exact Option.some.inj this
    exact List.inj_on_of_nodup_map hnd hx hy hy'

lemma invAux_of_db_eq {st st' : State} (h : InvAux st) (hu : st'.users = st.users)
    (hp : st'.posts = st.posts) (hc : st'.comments = st.comments) : InvAux st' := by
  unfold InvAux at h ⊢
  rw [hu, hp, hc]
  exact h

lemma invAux_register (f : Option RegInput) {st : State} (h : InvAux st) :
    InvAux (register f st).state := by
  cases f with
  | none => exact h
  | some f =>
    cases hfind : st.users.find? (fun u => u.email == f.email) with
    | some u =>
      simp only [register, hfind]
      exact invAux_of_db_eq h rfl rfl rfl
    | none =>
      obtain ⟨h1, h2, h3, h4, h5, h6, h7, h8⟩ := h
      simp only [register, InvAux]
      rw [hfind]
      refine ⟨?_, h2, h3, ?_, h5, ?_, ?_, h8⟩
      · rw [List.map_append]
        exact nodup_append_singleton h1
          (by simpa using nextId_not_mem (st.users.map (fun u => u.id)))
      · rw [List.map_append]
        exact nodup_append_singleton h4 (by simpa using not_mem_map_email hfind)
      · exact fun p hp => (h6 p hp).imp (fun u hu => ⟨List.mem_append_left _ hu.1, hu.2⟩)
      · exact fun c hc => (h7 c hc).imp (fun u hu => ⟨List.mem_append_left _ hu.1, hu.2⟩)

lemma invAux_login (f : Option LoginInput) {st : State} (h : InvAux st) :
    InvAux (login f st).state := by
  cases f with
  | none => exact h
  | some f =>
    cases hfind : st.users.find? (fun u => u.email == f.email) with
    | none =>
      simp only [login, hfind]
      exact invAux_of_db_eq h rfl rfl rfl
    | some u =>
      by_cases hck : check_password_hash u.password f.password
      · simp only [login, hfind, hck, if_pos]
        exact invAux_of_db_eq h rfl rfl rfl
      · simp only [login, hfind]
        rw [if_neg (by simpa using hck)]
        exact invAux_of_db_eq h rfl rfl rfl

lemma invAux_logout {st : State} (h : InvAux st) : InvAux (logout st).state := by
  unfold logout
  cases currentUser st with
  | none => exact invAux_of_db_eq h rfl rfl rfl
  | some u => exact invAux_of_db_eq h rfl rfl rfl

lemma invAux_show_post (pid : Nat) (c : Option String) {st : State} (h : InvAux st) :
    InvAux (show_post pid c st).state := by
  cases c with
  | none => exact invAux_of_db_eq h rfl rfl rfl
  | some txt =>
    cases hcu : currentUser st with
    | none =>
      simp only [show_post, hcu]
      exact invAux_of_db_eq h rfl rfl rfl
    | some u =>
      cases hp : st.posts.find? (fun p => p.id == pid) with
      | none =>
        simp only [show_post, hcu, hp]
        exact invAux_of_db_eq h rfl rfl rfl
      | some p =>
        obtain ⟨h1, h2, h3, h4, h5, h6, h7, h8⟩ := h
        simp only [show_post, hcu, hp, InvAux]
        refine ⟨h1, h2, ?_, h4, h5, h6, ?_, ?_⟩
        · rw [List.map_append]
          exact nodup_append_singleton h3
            (by simpa using nextId_not_mem (st.comments.map (fun c => c.id)))
        · intro c hc
          rcases List.mem_append.mp hc with hold | hnew
          · exact h7 c hold
          · rw [List.mem_singleton.mp hnew]
            exact ⟨u, currentUser_mem hcu, rfl⟩
        · intro c hc
          rcases List.mem_append.mp hc with hold | hnew
          · exact h8 c hold
          · rw [List.mem_singleton.mp hnew]
            exact Or.inr ⟨p, (mem_of_find?_eq_some hp).1, rfl⟩

lemma invAux_admin_only (body : State → Result) {st : State} (h : InvAux st)
    (hbody : InvAux (body st).state) : InvAux (admin_only body st).state := by
  cases hcu : currentUser st with
  | none =>
    simp only [admin_only, hcu]
    exact invAux_of_db_eq h rfl rfl rfl
  | some u =>
    by_cases hid : u.id == 1
    · simp only [admin_only, hcu, hid, if_true]
      exact hbody
    · simp only [admin_only, hcu]
      rw [if_neg hid]
      exact invAux_of_db_eq h rfl rfl rfl

lemma invAux_add_new_post_body (f : Option PostInput) (today : Date) {st : State}
    (h : InvAux st) : InvAux (add_new_post_body f today st).state := by
  cases f with
  | none => exact invAux_of_db_eq h rfl rfl rfl
  | some f =>
    cases hcu : currentUser st with
    | none =>
      simp only [add_new_post_body, hcu]
      exact invAux_of_db_eq h rfl rfl rfl
    | some u =>
      by_cases ht : st.posts.any (fun p => p.title == f.title)
      · simp only [add_new_post_body, hcu]
        rw [if_pos ht]
        exact invAux_of_db_eq h rfl rfl rfl
      · obtain ⟨h1, h2, h3, h4, h5, h6, h7, h8⟩ := h
        simp only [add_new_post_body, hcu, InvAux]
        rw [if_neg ht]
        rw [Bool.not_eq_true] at ht
        refine ⟨h1, ?_, h3, h4, ?_, ?_, h7, ?_⟩
        · rw [List.map_append]
          exact nodup_append_singleton h2
            (by simpa using nextId_not_mem (st.posts.map (fun p => p.id)))
        · rw [List.map_append]
          exact nodup_append_singleton h5 (by simpa using not_mem_map_title ht)
        · intro p hp
          rcases List.mem_append.mp hp with hold | hnew
          · exact h6 p hold
          · rw [List.mem_singleton.mp hnew]
            exact ⟨u, currentUser_mem hcu, rfl⟩
        · intro c hc
          rcases h8 c hc with hn | ⟨p, hp, he⟩
          · exact Or.inl hn
          · exact Or.inr ⟨p, List.mem_append_left _ hp, he⟩

lemma nodup_title_update (posts : List BlogPost) (k : Nat) (f : PostInput)
    (hnd : (posts.map (fun p => p.id)).Nodup)
    (hti : (posts.map (fun p => p.title)).Nodup)
    (hfresh : ∀ q ∈ posts, q.id ≠ k → q.title ≠ f.title) :
    ((posts.map (fun q => if q.id == k then
        { q with title := f.title, subtitle := f.subtitle,
                 img_url := f.img_url, body := f.body } else q)).map
      (fun p => p.title)).Nodup := by
  induction posts with
  | nil => simp
  | cons a t ih =>
    simp only [List.map_cons, List.nodup_cons] at hnd hti ⊢
    obtain ⟨ha_id, hnd_t⟩ := hnd
    obtain ⟨ha_ti, hti_t⟩ := hti
    by_cases hak : a.id = k
    · have hqt : ∀ q ∈ t, (if q.id == k then
          { q with title := f.title, subtitle := f.subtitle,
                   img_url := f.img_url, body := f.body } else q) = q := by
        intro q hq
        have hqk : q.id ≠ k := by
          intro he
          exact ha_id (by rw [hak, ← he]; exact List.mem_map_of_mem _ hq)
        rw [if_neg (by simpa using hqk)]
      have htail_eq : t.map (fun q => if q.id == k then
          { q with title := f.title, subtitle := f.subtitle,
                   img_url := f.img_url, body := f.body } else q) = t := by
        rw [List.map_congr_left hqt, List.map_id']
      rw [if_pos (by simpa using hak), htail_eq]
      refine ⟨?_, hti_t⟩
      intro hmem
      obtain ⟨q, hq, he⟩ := List.mem_map.mp hmem
      have hqk : q.id ≠ k := by
        intro hqe
        exact ha_id (by rw [hak, ← hqe]; exact List.mem_map_of_mem _ hq)
      exact hfresh q (List.mem_cons_of_mem a hq) hqk he
    · rw [if_neg (by simpa using hak)]
      refine ⟨?_, ih hnd_t hti_t (fun q hq hik => hfresh q (List.mem_cons_of_mem _ hq) hik)⟩
      intro hmem
      obtain ⟨q', hq', he⟩ := List.mem_map.mp hmem
      obtain ⟨q, hq, rfl⟩ := List.mem_map.mp hq'
      by_cases hqk : q.id = k
      · rw [if_pos (by simpa using hqk)] at he
        exact hfresh a (List.mem_cons_self a t) hak (Eq.symm he)
      · rw [if_neg (by simpa using hqk)] at he
        exact ha_ti (he ▸ List.mem_map_of_mem _ hq)

lemma invAux_edit_post_body (pid : Nat) (f : Option PostInput) {st : State}
    (h : InvAux st) : InvAux (edit_post_body pid f st).state := by
  cases hp : st.posts.find? (fun p => p.id == pid) with
  | none =>
    simp only [edit_post_body, hp]
    exact invAux_of_db_eq h rfl rfl rfl
  | some post =>
    cases hau : st.users.find? (fun v => some v.id == post.author_id) with
    | none =>
      simp only [edit_post_body, hp, hau]
      exact invAux_of_db_eq h rfl rfl rfl
    | some au =>
      cases f with
      | none =>
        simp only [edit_post_body, hp, hau]
        exact invAux_of_db_eq h rfl rfl rfl
      | some f =>
        by_cases ht : st.posts.any (fun q => q.id != post.id && q.title == f.title)
        · simp only [edit_post_body, hp, hau]
          rw [if_pos ht]
          exact invAux_of_db_eq h rfl rfl rfl
        · obtain ⟨h1, h2, h3, h4, h5, h6, h7, h8⟩ := h
          simp only [edit_post_body, hp, hau, InvAux]
          rw [if_neg ht]
          rw [Bool.not_eq_true, List.any_eq_false] at ht
          have hfresh : ∀ q ∈ st.posts, q.id ≠ post.id → q.title ≠ f.title := by
            intro q hq hne he
            exact ht q hq (by simp [hne, he])
          refine ⟨h1, ?_, h3, h4, ?_, ?_, h7, ?_⟩
          · have : (st.posts.map (fun q => if q.id == post.id then
                { q with title := f.title, subtitle := f.subtitle,
                         img_url := f.img_url, body := f.body } else q)).map
                  (fun p => p.id) = st.posts.map (fun p => p.id) := by
              rw [List.map_map]
              refine List.map_congr_left ?_
              intro q _
              by_cases hq : q.id = post.id <;> simp [hq]
            rw [this]
            exact h2
          · exact nodup_title_update st.posts post.id f h2 h5 hfresh
          · intro p' hp'
            obtain ⟨q, hq, rfl⟩ := List.mem_map.mp hp'
            by_cases hqk : q.id = post.id
            · rw [if_pos (by simpa using hqk)]
              exact h6 q hq
            · rw [if_neg (by simpa using hqk)]
              exact h6 q hq
          · intro c hc
            rcases h8 c hc with hn | ⟨p, hpm, he⟩
            · exact Or.inl hn
            · refine Or.inr ⟨if p.id == post.id then
                { p with title := f.title, subtitle := f.subtitle,
                         img_url := f.img_url, body := f.body } else p,
                List.mem_map_of_mem _ hpm, ?_⟩
              by_cases hqk : p.id = post.id
              · rw [if_pos (by simpa using hqk)]
                exact he
              · rw [if_neg (by simpa using hqk)]
                exact he

lemma invAux_delete_post_body (pid : Nat) {st : State} (h : InvAux st) :
    InvAux (delete_post_body pid st).state := by
  cases hp : st.posts.find? (fun p => p.id == pid) with
  | none =>
    simp only [delete_post_body, hp]
    exact invAux_of_db_eq h rfl rfl rfl
  | some post =>
    obtain ⟨h1, h2, h3, h4, h5, h6, h7, h8⟩ := h
    simp only [delete_post_body, hp, InvAux]
    refine ⟨h1, ?_, ?_, h4, ?_, ?_, ?_, ?_⟩
    · exact h2.sublist ((List.filter_sublist st.posts).map _)
    · have : (st.comments.map (fun c => if c.post_id == some pid then
          { c with post_id := none } else c)).map (fun c => c.id) =
            st.comments.map (fun c => c.id) := by
        rw [List.map_map]
        refine List.map_congr_left ?_
        intro c _
        by_cases hc : c.post_id = some pid <;> simp [hc]
      rw [this]
      exact h3
    · exact h5.sublist ((List.filter_sublist st.posts).map _)
    · intro p hpm
      exact h6 p (List.mem_of_mem_filter hpm)
    · intro c' hc'
      obtain ⟨c, hc, rfl⟩ := List.mem_map.mp hc'
      by_cases hcp : c.post_id = some pid
      · rw [if_pos (by simpa using hcp)]
        exact h7 c hc
      · rw [if_neg (by simpa using hcp)]
        exact h7 c hc
    · intro c' hc'
      obtain ⟨c, hc, rfl⟩ := List.mem_map.mp hc'
      by_cases hcp : c.post_id = some pid
      · rw [if_pos (by simpa using hcp)]
        exact Or.inl rfl
      · rw [if_neg (by simpa using hcp)]
        rcases h8 c hc with hn | ⟨p, hpm, he⟩
        · exact Or.inl hn
        · refine Or.inr ⟨p, List.mem_filter.mpr ⟨hpm, ?_⟩, he⟩
          have : p.id ≠ pid := by
            intro hne
            exact hcp (by rw [he, hne])
          simpa using this

lemma invAux_step (o : Op) {st : State} (h : InvAux st) :
    InvAux (applyOp o st).state := by
  cases o with
  | index => exact h
  | reg f => exact invAux_register f h
  | logIn f => exact invAux_login f h
  | logOut => exact invAux_logout h
  | showPost pid c => exact invAux_show_post pid c h
  | aboutPage => exact h
  | contactPage => exact h
  | newPost f today => exact invAux_admin_only _ h (invAux_add_new_post_body f today h)
  | editPost pid f => exact invAux_admin_only _ h (invAux_edit_post_body pid f h)
  | deletePost pid => exact invAux_admin_only _ h (invAux_delete_post_body pid h)

lemma invAux_reachable {st : State} (h : Reachable st) : InvAux st := by
  induction h with
  | init => decide
  | step o _ ih => exact invAux_step o ih

/-! ### Claims -/

/-- Claim C1: the three admin-gated operations (post create, edit,
delete) run their handler body exactly when the session resolves to an
authenticated user whose id is the hardcoded privileged id 1; any other
session — wrong id or anonymous — receives a bare 403 with unchanged
state, no commit and no flashed detail. -/
theorem c1_admin_gate (st : State) (form form2 : Option PostInput) (today : Date)
    (pid pid2 : Nat) :
    (∀ u, currentUser st = some u → u.id ≠ 1 →
      applyOp (Op.newPost form today) st = ⟨Except.ok (Response.abort 403), st, 0, []⟩ ∧
      applyOp (Op.editPost pid form2) st = ⟨Except.ok (Response.abort 403), st, 0, []⟩ ∧
      applyOp (Op.deletePost pid2) st = ⟨Except.ok (Response.abort 403), st, 0, []⟩) ∧
    (currentUser st = none →
      applyOp (Op.newPost form today) st = ⟨Except.ok (Response.abort 403), st, 0, []⟩ ∧
      applyOp (Op.editPost pid form2) st = ⟨Except.ok (Response.abort 403), st, 0, []⟩ ∧
      applyOp (Op.deletePost pid2) st = ⟨Except.ok (Response.abort 403), st, 0, []⟩) ∧
    (∀ u, currentUser st = some u → u.id = 1 →
      applyOp (Op.newPost form today) st = add_new_post_body form today st ∧
      applyOp (Op.editPost pid form2) st = edit_post_body pid form2 st ∧
      applyOp (Op.deletePost pid2) st = delete_post_body pid2 st) := by
  refine ⟨?_, ?_, ?_⟩
  · intro u hu hne
    simp [applyOp, add_new_post, edit_post, delete_post, admin_only, hu, hne]
  · intro hu
    simp [applyOp, add_new_post, edit_post, delete_post, admin_only, hu]
  · intro u hu he
    simp [applyOp, add_new_post, edit_post, delete_post, admin_only, hu, he]

/-- Witness for C1: Bob (id 2) and the anonymous session get 403 on all
three operations; the admin session reaches the handler body. -/
theorem c1_admin_gate_witness :
    (applyOp (Op.newPost none ⟨2024, 1, 1⟩) stBob = ⟨Except.ok (Response.abort 403), stBob, 0, []⟩ ∧
      applyOp (Op.editPost 1 none) stBob = ⟨Except.ok (Response.abort 403), stBob, 0, []⟩ ∧
      applyOp (Op.deletePost 1) stBob = ⟨Except.ok (Response.abort 403), stBob, 0, []⟩) ∧
    (applyOp (Op.deletePost 1) stAnon = ⟨Except.ok (Response.abort 403), stAnon, 0, []⟩) ∧
    (applyOp (Op.deletePost 1) stAdmin = delete_post_body 1 stAdmin) :=
  ⟨(c1_admin_gate stBob none none ⟨2024, 1, 1⟩ 1 1).1 ⟨2, "b@x.com", generate_password_hash "s2" "qw", "Bob"⟩ (by decide) (by decide),
   ((c1_admin_gate stAnon none none ⟨2024, 1, 1⟩ 1 1).2.1 (by decide)).2.2,
   ((c1_admin_gate stAdmin none none ⟨2024, 1, 1⟩ 1 1).2.2 ⟨1, "a@x.com", generate_password_hash "s1" "pw", "Alice"⟩ (by decide) rfl).2.2⟩

/-- Claim C5: the detail page of any post lists `Comment.query.all()` —
the comments of every post in the store, not only those whose `post_id`
matches the requested post. -/
theorem c5_comments_unfiltered (st : State) (pid : Nat) :
    ∃ L, (show_post pid none st).response =
        Except.ok (Response.renderPost (st.posts.find? (fun p => p.id == pid))
          ((currentUser st).isSome) L) ∧
      L = st.comments ∧
      ∀ c ∈ st.comments, c.post_id ≠ some pid → c ∈ L := by
  exact ⟨st.comments, rfl, rfl, fun c hc _ => hc⟩

/-- Claim C9: every request handler issues at most one commit to the
store. -/
theorem c9_at_most_one_commit (o : Op) (st : State) : (applyOp o st).commits ≤ 1 := by
  cases o <;>
    simp only [applyOp, get_all_posts, register, login, logout, show_post, about,
      contact, add_new_post, edit_post, delete_post, admin_only,
      add_new_post_body, edit_post_body, delete_post_body] <;>
    (repeat' split) <;> simp

/-- Claim C10: for a post id absent from the store, a GET of the detail
page renders normally with the post passed as an absent value (no
not-found error), while an authenticated comment submission to the same
id faults with `AttributeError` when the handler reads the missing
post's `id`. -/
theorem c10_missing_post (st : State) (pid : Nat)
    (h : st.posts.find? (fun p => p.id == pid) = none) :
    show_post pid none st =
      ⟨Except.ok (Response.renderPost none ((currentUser st).isSome) st.comments), st, 0, []⟩ ∧
    (∀ txt u, currentUser st = some u →
      show_post pid (some txt) st = ⟨Except.error Err.attributeError, st, 0, []⟩) := by
  constructor
  · simp [show_post, h]
  · intro txt u hu
    simp [show_post, h, hu]

/-- Claim C2: registering a fresh email appends exactly one `User`
storing the salted iterated hash of the password, commits once, logs the
new user in (the session resolves to exactly that user) and redirects to
the index; a second registration with the same email changes nothing,
flashes a message and redirects to the login page. -/
theorem c2_register (st : State) (f : RegInput)
    (h : st.users.find? (fun u => u.email == f.email) = none) :
    register (some f) st =
      ⟨Except.ok (Response.redirect "get_all_posts"),
        { st with
            users := st.users ++ [⟨nextId (st.users.map (fun u => u.id)), f.email,
              generate_password_hash f.salt f.password, f.name⟩],
            session := some (nextId (st.users.map (fun u => u.id))) }, 1, []⟩ ∧
    currentUser (register (some f) st).state =
      some ⟨nextId (st.users.map (fun u => u.id)), f.email,
        generate_password_hash f.salt f.password, f.name⟩ ∧
    (∀ f2 : RegInput, f2.email = f.email →
      register (some f2) (register (some f) st).state =
        ⟨Except.ok (Response.redirect "login"), (register (some f) st).state, 0,
          ["You've already signed up with that email. Login instead"]⟩) := by
  have hnone : st.users.find? (fun u => u.id == nextId (st.users.map (fun v => v.id))) = none := by
    rw [List.find?_eq_none]
    intro x hx
    simp only [beq_iff_eq]
    intro hxe
    exact nextId_not_mem (st.users.map (fun v => v.id)) (hxe ▸ List.mem_map_of_mem _ hx)
  have h1 : register (some f) st =
      ⟨Except.ok (Response.redirect "get_all_posts"),
        { st with
            users := st.users ++ [⟨nextId (st.users.map (fun u => u.id)), f.email,
              generate_password_hash f.salt f.password, f.name⟩],
            session := some (nextId (st.users.map (fun u => u.id))) }, 1, []⟩ := by
    simp [register, h]
  refine ⟨h1, ?_, ?_⟩
  · rw [h1]
    simp only [currentUser, Option.some_bind, List.find?_append, hnone, Option.none_or]
    simp
  · intro f2 hf2
    rw [h1]
    simp only [register]
    simp only [hf2, List.find?_append, h, Option.none_or]
    simp

/-- Witness for C2: registering Carl on the two-user fixture appends one
user with the pbkdf2-hashed password and logs him in as user 3; the
repeated registration is refused without a new row. -/
theorem c2_register_witness :
    register (some ⟨"c@x.com", "cw", "Carl", "s3"⟩) stAnon =
      ⟨Except.ok (Response.redirect "get_all_posts"),
        { stAnon with
            users := demoUsers ++ [⟨3, "c@x.com", generate_password_hash "s3" "cw", "Carl"⟩],
            session := some 3 }, 1, []⟩ ∧
    register (some ⟨"c@x.com", "other", "Carl2", "s4"⟩)
        (register (some ⟨"c@x.com", "cw", "Carl", "s3"⟩) stAnon).state =
      ⟨Except.ok (Response.redirect "login"),
        (register (some ⟨"c@x.com", "cw", "Carl", "s3"⟩) stAnon).state, 0,
        ["You've already signed up with that email. Login instead"]⟩ :=
  ⟨(c2_register stAnon ⟨"c@x.com", "cw", "Carl", "s3"⟩ (by decide)).1,
   (c2_register stAnon ⟨"c@x.com", "cw", "Carl", "s3"⟩ (by decide)).2.2
     ⟨"c@x.com", "other", "Carl2", "s4"⟩ rfl⟩

/-- Claim C6: a successful post creation by the admin appends exactly
one `BlogPost` whose date is today's date rendered through
strftime "%B %d, %Y", whose author is the session user and whose
remaining fields are the submitted form values. -/
theorem c6_new_post (st : State) (f : PostInput) (today : Date) (u : User)
    (hu : currentUser st = some u) (hadmin : u.id = 1)
    (ht : st.posts.any (fun p => p.title == f.title) = false) :
    applyOp (Op.newPost (some f) today) st =
      ⟨Except.ok (Response.redirect "get_all_posts"),
        { st with posts := st.posts ++
          [⟨nextId (st.posts.map (fun p => p.id)), some u.id, f.title, f.subtitle,
            strftimeBdY today, f.body, f.img_url⟩] }, 1, []⟩ := by
  simp [applyOp, add_new_post, admin_only, hu, hadmin, add_new_post_body, ht]

/-- Witness for C6: the admin posts on 2024-03-05 and the stored row
carries the date "March 05, 2024" and author id 1. -/
theorem c6_new_post_witness :
    applyOp (Op.newPost (some ⟨"New", "S", "B", "http://i"⟩) ⟨2024, 3, 5⟩) stAdmin =
      ⟨Except.ok (Response.redirect "get_all_posts"),
        { stAdmin with posts := [demoPost,
          ⟨2, some 1, "New", "S", strftimeBdY ⟨2024, 3, 5⟩, "B", "http://i"⟩] }, 1, []⟩ ∧
    strftimeBdY ⟨2024, 3, 5⟩ = "March 05, 2024" :=
  ⟨c6_new_post stAdmin ⟨"New", "S", "B", "http://i"⟩ ⟨2024, 3, 5⟩
      ⟨1, "a@x.com", generate_password_hash "s1" "pw", "Alice"⟩ (by decide) rfl (by decide),
   by decide⟩

/-- Claim C7: a successful admin edit of an existing post overwrites
exactly its title, subtitle, image URL and body with the submitted
values; the post's id, author and date — and every other post — are left
unchanged. -/
theorem c7_edit_post (st : State) (pid : Nat) (f : PostInput) (post : BlogPost) (u au : User)
    (hu : currentUser st = some u) (hadmin : u.id = 1)
    (hp : st.posts.find? (fun p => p.id == pid) = some post)
    (hau : st.users.find? (fun v => some v.id == post.author_id) = some au)
    (ht : st.posts.any (fun q => q.id != post.id && q.title == f.title) = false) :
    applyOp (Op.editPost pid (some f)) st =
      ⟨Except.ok (Response.redirect "show_post"),
        { st with posts := st.posts.map (fun q =>
            if q.id == post.id then
              { q with title := f.title, subtitle := f.subtitle,
                       img_url := f.img_url, body := f.body }
            else q) }, 1, []⟩ ∧
    (applyOp (Op.editPost pid (some f)) st).state.posts.map
        (fun q => (q.id, q.author_id, q.date)) =
      st.posts.map (fun q => (q.id, q.author_id, q.date)) := by
  have h1 : applyOp (Op.editPost pid (some f)) st =
      ⟨Except.ok (Response.redirect "show_post"),
        { st with posts := st.posts.map (fun q =>
            if q.id == post.id then
              { q with title := f.title, subtitle := f.subtitle,
                       img_url := f.img_url, body := f.body }
            else q) }, 1, []⟩ := by
    simp [applyOp, edit_post, admin_only, hu, hadmin, edit_post_body, hp, hau, ht]
  refine ⟨h1, ?_⟩
  rw [h1]
  simp only [List.map_map]
  refine List.map_congr_left ?_
  intro q _
  by_cases hq : q.id = post.id <;> simp [hq]

/-- Witness for C7: the admin edits post 1; title, subtitle, image and
body change while id, author and date stay as they were. -/
theorem c7_edit_post_witness :
    applyOp (Op.editPost 1 (some ⟨"Hello2", "Sub2", "B2", "http://i2"⟩)) stAdmin =
      ⟨Except.ok (Response.redirect "show_post"),
        { stAdmin with posts :=
          [⟨1, some 1, "Hello2", "Sub2", "January 01, 2024", "B2", "http://i2"⟩] }, 1, []⟩ :=
  have h := c7_edit_post stAdmin 1 ⟨"Hello2", "Sub2", "B2", "http://i2"⟩ demoPost
    ⟨1, "a@x.com", generate_password_hash "s1" "pw", "Alice"⟩
    ⟨1, "a@x.com", generate_password_hash "s1" "pw", "Alice"⟩
    (by decide) rfl (by decide) (by decide) (by decide)
  by rw [h.1]; decide

/-- Claim C3: starting from an anonymous session, `login` establishes a
logged-in session exactly when a user with the given email is found and
the password checks against that user's stored hash; an unknown email or
a hash mismatch leaves the state unchanged (session still anonymous) and
flashes a user-visible message. -/
theorem c3_login (st : State) (f : LoginInput) (h : st.session = none) :
    (st.users.find? (fun u => u.email == f.email) = none →
      login (some f) st = ⟨Except.ok Response.renderLogin, st, 0,
        ["This email does not exist. Please try again."]⟩ ∧
      (login (some f) st).state.session = none) ∧
    (∀ u, st.users.find? (fun v => v.email == f.email) = some u →
      (check_password_hash u.password f.password = true →
        login (some f) st = ⟨Except.ok (Response.redirect "get_all_posts"),
          { st with session := some u.id }, 0, []⟩) ∧
      (check_password_hash u.password f.password = false →
        login (some f) st = ⟨Except.ok Response.renderLogin, st, 0, ["Invalid password."]⟩ ∧
        (login (some f) st).state.session = none)) := by
  refine ⟨fun hfind => ?_, fun u hfind => ⟨fun hck => ?_, fun hck => ?_⟩⟩
  · simp [login, hfind, h]
  · simp [login, hfind, hck]
  · simp [login, hfind, hck, h]

/-- Witness for C3: on the anonymous fixture, the correct password for
Alice logs in as user 1; a wrong password and an unknown email leave the
session anonymous with a flash. -/
theorem c3_login_witness :
    login (some ⟨"a@x.com", "pw"⟩) stAnon =
      ⟨Except.ok (Response.redirect "get_all_posts"), { stAnon with session := some 1 }, 0, []⟩ ∧
    login (some ⟨"a@x.com", "zz"⟩) stAnon =
      ⟨Except.ok Response.renderLogin, stAnon, 0, ["Invalid password."]⟩ ∧
    login (some ⟨"z@x.com", "pw"⟩) stAnon =
      ⟨Except.ok Response.renderLogin, stAnon, 0,
        ["This email does not exist. Please try again."]⟩ :=
  ⟨((c3_login stAnon ⟨"a@x.com", "pw"⟩ rfl).2
      ⟨1, "a@x.com", generate_password_hash "s1" "pw", "Alice"⟩ (by decide)).1 (by decide),
   (((c3_login stAnon ⟨"a@x.com", "zz"⟩ rfl).2
      ⟨1, "a@x.com", generate_password_hash "s1" "pw", "Alice"⟩ (by decide)).2 (by decide)).1,
   ((c3_login stAnon ⟨"z@x.com", "pw"⟩ rfl).1 (by decide)).1⟩

/-- Claim C4: submitting a comment on an existing post's detail page
while authenticated appends exactly one `Comment` whose author is the
session user and whose parent is the viewed post, and re-renders the
page (no redirect) with the new comment visible; submitting while
anonymous leaves the store untouched and redirects toward login with a
prompt. -/
theorem c4_comment_submission (st : State) (pid : Nat) (p : BlogPost) (txt : String)
    (hp : st.posts.find? (fun q => q.id == pid) = some p) :
    (∀ u, currentUser st = some u →
      show_post pid (some txt) st =
        ⟨Except.ok (Response.renderPost (some p) true
            (st.comments ++ [⟨nextId (st.comments.map (fun c => c.id)), some u.id, some p.id, txt⟩])),
          { st with comments :=
            st.comments ++ [⟨nextId (st.comments.map (fun c => c.id)), some u.id, some p.id, txt⟩] },
          1, []⟩) ∧
    (currentUser st = none →
      show_post pid (some txt) st =
        ⟨Except.ok (Response.redirect "login"), st, 0,
          ["You need to login or register to comment."]⟩) := by
  constructor
  · intro u hu
    simp [show_post, hp, hu]
  · intro hu
    simp [show_post, hp, hu]

/-- Witness for C4: Bob comments on post 1 and exactly one linked
comment row appears; the anonymous session is redirected and no row is
created. -/
theorem c4_comment_submission_witness :
    show_post 1 (some "Nice!") stBob =
      ⟨Except.ok (Response.renderPost (some demoPost) true [⟨1, some 2, some 1, "Nice!"⟩]),
        { stBob with comments := [⟨1, some 2, some 1, "Nice!"⟩] }, 1, []⟩ ∧
    show_post 1 (some "Nice!") stAnon =
      ⟨Except.ok (Response.redirect "login"), stAnon, 0,
        ["You need to login or register to comment."]⟩ :=
  ⟨(c4_comment_submission stBob 1 demoPost "Nice!" (by decide)).1
      ⟨2, "b@x.com", generate_password_hash "s2" "qw", "Bob"⟩ (by decide),
   (c4_comment_submission stAnon 1 demoPost "Nice!" (by decide)).2 (by decide)⟩

/-- Counterexample to C8 as stated: register, create a post, comment on
it, then delete the post.  The resulting state is reachable, yet the
surviving comment references no existing post (its `post_id` was nulled
by the delete), so the claimed referential invariant fails. -/
theorem c8_counterexample_delete_breaks_invariant :
    Reachable cexState ∧ ¬ ClaimedInv cexState :=
  ⟨reachable_runOps cexOps Reachable.init, by decide⟩

/-- Claim C8 (amended): in every reachable state, every Comment
references exactly one existing User, every Post references exactly one
existing User, emails and titles are unique, and a Comment's parent-post
reference is either an existing Post or NULL — the NULL case arises
because deleting a Post with Comments clears their parent reference
instead of preserving it. -/
theorem c8_referential_invariant {st : State} (h : Reachable st) : AmendedInv st := by
  obtain ⟨h1, h2, _h3, h4, h5, h6, h7, h8⟩ := invAux_reachable h
  refine ⟨?_, ?_, h4, h5⟩
  · intro c hc
    refine ⟨refsOneUser_intro h1 (h7 c hc), ?_⟩
    rcases h8 c hc with hn | hex
    · exact Or.inl hn
    · exact Or.inr (refsOnePost_intro h2 hex)
  · intro p hp
    exact refsOneUser_intro h1 (h6 p hp)

/-- Witness for C8: the amended invariant holds at the concrete
reachable state of the counterexample trace. -/
theorem c8_referential_invariant_witness : AmendedInv cexState :=
  c8_referential_invariant (reachable_runOps cexOps Reachable.init)

/-- Witness for C10: post id 99 does not exist in `stAdmin`; its GET
renders with no post and the admin's comment submission faults. -/
theorem c10_missing_post_witness :
    show_post 99 none stAdmin =
      ⟨Except.ok (Response.renderPost none true stAdmin.comments), stAdmin, 0, []⟩ ∧
    show_post 99 (some "hi") stAdmin = ⟨Except.error Err.attributeError, stAdmin, 0, []⟩ :=
  ⟨(c10_missing_post stAdmin 99 (by decide)).1,
   (c10_missing_post stAdmin 99 (by decide)).2 "hi"
     ⟨1, "a@x.com", generate_password_hash "s1" "pw", "Alice"⟩ (by decide)⟩

end Blog
